import Mathlib

/-!
Verification of the schema compiler in `packages/db/src/internal.ts`:
a shallow embedding of its data model and operations, followed by theorems
about the DDL generator (`getCreateTableQuery`), the default-literal
generator (`getDefaultValueSql`), the column-model builder
(`collectionToTable` / `columnMapper`), and the storage codecs
(`dateType`, `jsonType`).

JavaScript strings are modelled as Lean `String` (lists of characters),
JavaScript numbers as `Int` (floating point is out of scope), and
`process.exit` as an explicit outcome constructor.  Library functions the
source calls (drizzle's `SQLiteAsyncDialect.escapeName` / `escapeString`,
`JSON.stringify` / `JSON.parse`, `Date.prototype.toISOString` /
`new Date(string)`, kleur's `bold`, `nanoid`) are embedded from their
documented behaviour.
-/

namespace AstroDb

/-! ## Characters and decimal digits -/

/-- The single-quote character, written via its code point. -/
def squote : Char := Char.ofNat 39

/-- Decimal digit character for `d < 10` (clamped at `'9'` otherwise). -/
def digitChar (d : Nat) : Char := Char.ofNat (48 + min d 9)

/-- Lower-case hexadecimal digit character for `d < 16` (clamped at `'f'`). -/
def hexChar (d : Nat) : Char :=
  if d < 10 then Char.ofNat (48 + d) else Char.ofNat (87 + min d 15)

/-- Numeric value of a decimal digit character. -/
def digitVal (c : Char) : Nat := c.toNat - 48

/-- Numeric value of a (lower-case) hexadecimal digit character. -/
def hexVal (c : Char) : Nat :=
  if c.toNat ≥ 97 then c.toNat - 87 else c.toNat - 48

/-- The decimal digits of `n`, most significant first, in front of `acc`. -/
def natDigitsOnto (n : Nat) (acc : List Char) : List Char :=
  if n < 10 then digitChar n :: acc
  else natDigitsOnto (n / 10) (digitChar (n % 10) :: acc)
termination_by n
decreasing_by omega

/-- The decimal digits of `n`, most significant first. -/
def natDigits (n : Nat) : List Char := natDigitsOnto n []

/-- Base-10 rendering of an integer, as JavaScript string conversion
renders an integral number value. -/
def intChars (n : Int) : List Char :=
  if n < 0 then '-' :: natDigits n.natAbs else natDigits n.toNat

/-- Base-10 rendering of an integer as a `String`. -/
def intToString (n : Int) : String := String.mk (intChars n)

/-! ## The SQLite dialect helpers (drizzle's `SQLiteAsyncDialect`)

`escapeName` wraps an identifier in double quotes; `escapeString` wraps a
string in single quotes, doubling every embedded single quote. -/

/-- Double every single-quote character (`str.replace(/'/g, "''")`). -/
def doubleQuotes : List Char → List Char
  | [] => []
  | c :: cs =>
    if c = squote then squote :: squote :: doubleQuotes cs
    else c :: doubleQuotes cs

/-- drizzle `SQLiteAsyncDialect.escapeName`: wrap in double quotes. -/
def escapeName (name : String) : String := "\"" ++ name ++ "\""

/-- drizzle `SQLiteAsyncDialect.escapeString`: single-quote the string,
doubling embedded single quotes. -/
def escapeString (s : String) : String :=
  String.mk (squote :: doubleQuotes s.toList ++ [squote])

/-- Reader for the body of a SQL single-quoted literal: a doubled quote
stands for one quote, the closing quote must end the input, and a lone
interior quote is malformed.  Used to state that `escapeString` escapes
rather than concatenates raw. -/
def sqlLiteralBody : List Char → Option (List Char)
  | [] => none
  | c :: rest =>
    if c = squote then
      match rest with
      | [] => some []
      | c2 :: rest2 =>
        if c2 = squote then (sqlLiteralBody rest2).map (fun cs => squote :: cs)
        else none
    else (sqlLiteralBody rest).map (fun cs => c :: cs)

/-- Reader for a whole SQL single-quoted string literal. -/
def sqlLiteralValue (s : String) : Option String :=
  match s.toList with
  | c :: rest => if c = squote then (sqlLiteralBody rest).map String.mk else none
  | [] => none

/-! ## The field and collection data model (`types.ts`)

`DBField` is the tagged union of the five field kinds; each carries its
`optional` and `unique` flags and a typed optional default. -/

/-- A JSON-serializable JavaScript value.  Numbers are modelled as
integers; floating point is out of scope. -/
inductive JSValue where
  | null
  | bool (b : Bool)
  | num (n : Int)
  | str (s : String)
  | arr (elems : List JSValue)
  | obj (entries : List (String × JSValue))

/-- A JavaScript runtime value offered as a `json` field default: either a
JSON-serializable value or a value `JSON.stringify` throws on (modelled
from JS semantics: a cyclic object graph). -/
inductive JSRuntimeValue where
  | serializable (v : JSValue)
  | cyclicObject

/-- The five logical field types of `FieldType` in `types.ts`. -/
inductive FieldType where
  | text | number | boolean | date | json
deriving DecidableEq

/-- A field definition (`DBField` in `types.ts`): a tagged union over the
five kinds, with `optional`/`unique` flags and a kind-typed default. -/
inductive DBField where
  | text (optional unique : Bool) (dflt : Option String)
  | number (optional unique : Bool) (dflt : Option Int)
  | boolean (optional unique : Bool) (dflt : Option Bool)
  | date (optional unique : Bool) (dflt : Option String)
  | json (optional unique : Bool) (dflt : Option JSRuntimeValue)

namespace DBField

/-- The `type` discriminant tag of a field. -/
def type : DBField → FieldType
  | .text _ _ _ => .text
  | .number _ _ _ => .number
  | .boolean _ _ _ => .boolean
  | .date _ _ _ => .date
  | .json _ _ _ => .json

/-- The `optional` flag. -/
def optional : DBField → Bool
  | .text o _ _ => o | .number o _ _ => o | .boolean o _ _ => o
  | .date o _ _ => o | .json o _ _ => o

/-- The `unique` flag. -/
def unique : DBField → Bool
  | .text _ u _ => u | .number _ u _ => u | .boolean _ u _ => u
  | .date _ u _ => u | .json _ u _ => u

/-- `hasDefault` from the source: `field.default !== undefined`. -/
def hasDefault : DBField → Bool
  | .text _ _ d => d.isSome | .number _ _ d => d.isSome
  | .boolean _ _ d => d.isSome | .date _ _ d => d.isSome
  | .json _ _ d => d.isSome

end DBField

/-- A collection definition: the ordered field list (`Object.entries` of
`collection.fields`, in insertion order). -/
structure DBCollection where
  fields : List (String × DBField)

/-! ## `JSON.stringify` (embedded from JS semantics)

Compact output, double-quoted strings with `"`, `\` and control
characters escaped the way V8 escapes them. -/

/-- `JSON.stringify`'s escape of one string character. -/
def jsonEscapeChar (c : Char) : List Char :=
  if c = '"' then ['\\', '"']
  else if c = '\\' then ['\\', '\\']
  else if c = '\x08' then ['\\', 'b']
  else if c = '\x09' then ['\\', 't']
  else if c = '\x0a' then ['\\', 'n']
  else if c = '\x0c' then ['\\', 'f']
  else if c = '\x0d' then ['\\', 'r']
  else if c.toNat < 32 then
    ['\\', 'u', '0', '0', hexChar (c.toNat / 16), hexChar (c.toNat % 16)]
  else [c]

/-- The characters of a JSON string literal for `s`, quotes included. -/
def jsonQuoteChars (s : String) : List Char :=
  '"' :: (s.toList.map jsonEscapeChar).flatten ++ ['"']

mutual

/-- Characters of `JSON.stringify v` (compact, no whitespace). -/
def jsonChars : JSValue → List Char
  | .null => "null".toList
  | .bool true => "true".toList
  | .bool false => "false".toList
  | .num n => intChars n
  | .str s => jsonQuoteChars s
  | .arr es => '[' :: jsonCharsElems es ++ [']']
  | .obj kvs => '\x7b' :: jsonCharsEntries kvs ++ ['\x7d']

/-- Comma-separated array elements. -/
def jsonCharsElems : List JSValue → List Char
  | [] => []
  | [v] => jsonChars v
  | v :: rest => jsonChars v ++ ',' :: jsonCharsElems rest

/-- Comma-separated `"key":value` object entries. -/
def jsonCharsEntries : List (String × JSValue) → List Char
  | [] => []
  | [(k, v)] => jsonQuoteChars k ++ ':' :: jsonChars v
  | (k, v) :: rest => jsonQuoteChars k ++ ':' :: jsonChars v ++ ',' :: jsonCharsEntries rest

end

/-- `JSON.stringify` on a serializable value. -/
def jsonStringify (v : JSValue) : String := String.mk (jsonChars v)

/-- `JSON.stringify` on an arbitrary runtime value: throws (here `none`)
on a cyclic object graph. -/
def jsonStringifyRuntime : JSRuntimeValue → Option String
  | .serializable v => some (jsonStringify v)
  | .cyclicObject => none

/-! ## The DDL generator -/

/-- kleur's `bold`: wrap in the ANSI bold escape sequence. -/
def bold (s : String) : String := "\x1b[1m" ++ s ++ "\x1b[22m"

/-- Outcome of running a piece of the compiler: a normal result, or the
process terminated by `process.exit` after printing a diagnostic. -/
inductive Proc (α : Type) where
  | ok (a : α)
  | exited (code : Nat) (msg : String)

/-- `schemaTypeToSqlType` from the source: the physical storage type. -/
def schemaTypeToSqlType : FieldType → String
  | .date | .text | .json => "text"
  | .number | .boolean => "integer"

/-- The diagnostic `getDefaultValueSql` prints before exiting when a
`json` default cannot be stringified. -/
def invalidJsonDefaultMsg (columnName : String) : String :=
  "Invalid default value for column " ++ bold columnName ++
    ". Defaults must be valid JSON when using the `json()` type."

/-- `getDefaultValueSql` from the source: the SQL literal for a field's
default value.  Only called (by `getModifiers`) on fields whose default is
present; the catch-all for an absent default is never reached. -/
def getDefaultValueSql (columnName : String) (column : DBField) : Proc String :=
  match column with
  | .boolean _ _ (some b) => .ok (if b then "TRUE" else "FALSE")
  | .number _ _ (some n) => .ok (intToString n)
  | .text _ _ (some s) => .ok (escapeString s)
  | .date _ _ (some s) =>
    .ok (if s = "now" then "CURRENT_TIMESTAMP" else escapeString s)
  | .json _ _ (some v) =>
    match jsonStringifyRuntime v with
    | some stringified => .ok (escapeString stringified)
    | none => .exited 0 (invalidJsonDefaultMsg columnName)
  | _ => .ok ""

/-- `getModifiers` from the source: `NOT NULL`, then `UNIQUE`, then
`DEFAULT <literal>`. -/
def getModifiers (columnName : String) (column : DBField) : Proc String :=
  let m1 : String := if !column.optional then " NOT NULL" else ""
  let m2 : String := if column.unique then m1 ++ " UNIQUE" else m1
  if column.hasDefault then
    match getDefaultValueSql columnName column with
    | .ok lit => .ok (m2 ++ " DEFAULT " ++ lit)
    | .exited c m => .exited c m
  else .ok m2

/-- One column clause of the `CREATE TABLE` statement. -/
def columnClause (columnName : String) (column : DBField) : Proc String :=
  match getModifiers columnName column with
  | .ok mods => .ok (escapeName columnName ++ " " ++ schemaTypeToSqlType column.type ++ mods)
  | .exited c m => .exited c m

/-- The per-field clauses, in declared order; a `process.exit` inside any
clause aborts the whole computation. -/
def columnClauses : List (String × DBField) → Proc (List String)
  | [] => .ok []
  | (name, field) :: rest =>
    match columnClause name field with
    | .exited c m => .exited c m
    | .ok q =>
      match columnClauses rest with
      | .exited c m => .exited c m
      | .ok qs => .ok (q :: qs)

/-- `getCreateTableQuery` from the source: the `CREATE TABLE` DDL string
for one collection. -/
def getCreateTableQuery (collectionName : String) (collection : DBCollection) : Proc String :=
  match columnClauses collection.fields with
  | .exited c m => .exited c m
  | .ok qs =>
    .ok ("CREATE TABLE " ++ escapeName collectionName ++ " (" ++
      String.intercalate ", " ("\"id\" text PRIMARY KEY" :: qs) ++ ")")

/-- The `DROP TABLE` statement `createDbTables` builds for one collection:
the raw collection name is interpolated, with no escaping. -/
def dropTableQuery (name : String) : String := "DROP TABLE IF EXISTS " ++ name

/-- The list of setup statements `createDbTables` builds and executes:
for each collection, its `DROP TABLE` statement then its `CREATE TABLE`
statement. -/
def createDbTablesQueries : List (String × DBCollection) → Proc (List String)
  | [] => .ok []
  | (name, collection) :: rest =>
    match getCreateTableQuery name collection with
    | .exited c m => .exited c m
    | .ok createQuery =>
      match createDbTablesQueries rest with
      | .exited c m => .exited c m
      | .ok qs => .ok (dropTableQuery name :: createQuery :: qs)

/-! ## Native dates and ISO-8601 text (JS `Date` embedded by its UTC
components)

`Date.prototype.toISOString` renders the canonical
`YYYY-MM-DDTHH:MM:SS.sssZ` form; `new Date(string)` on such a string
yields the date with those components (or an invalid date, here `none`,
when a component is out of range). -/

/-- A native JS `Date`, embedded by its UTC calendar components. -/
structure JSDate where
  year : Nat
  month : Nat
  day : Nat
  hour : Nat
  minute : Nat
  second : Nat
  millis : Nat
deriving DecidableEq

/-- The Gregorian leap-year rule. -/
def isLeapYear (y : Nat) : Bool :=
  (y % 4 = 0 && y % 100 ≠ 0) || y % 400 = 0

/-- Days in a month of a given year. -/
def daysInMonth (y m : Nat) : Nat :=
  if m = 2 then (if isLeapYear y then 29 else 28)
  else if m = 4 || m = 6 || m = 9 || m = 11 then 30
  else 31

/-- The components an actual JS `Date` in years 0–9999 can have. -/
def JSDate.valid (d : JSDate) : Prop :=
  d.year < 10000 ∧ 1 ≤ d.month ∧ d.month ≤ 12 ∧
    1 ≤ d.day ∧ d.day ≤ daysInMonth d.year d.month ∧
    d.hour < 24 ∧ d.minute < 60 ∧ d.second < 60 ∧ d.millis < 1000

instance (d : JSDate) : Decidable d.valid := by
  unfold JSDate.valid; infer_instance

/-- Two zero-padded decimal digits of `n % 100`. -/
def pad2 (n : Nat) : List Char := [digitChar (n / 10 % 10), digitChar (n % 10)]

/-- Three zero-padded decimal digits of `n % 1000`. -/
def pad3 (n : Nat) : List Char :=
  [digitChar (n / 100 % 10), digitChar (n / 10 % 10), digitChar (n % 10)]

/-- Four zero-padded decimal digits of `n % 10000`. -/
def pad4 (n : Nat) : List Char :=
  [digitChar (n / 1000 % 10), digitChar (n / 100 % 10),
    digitChar (n / 10 % 10), digitChar (n % 10)]

/-- `Date.prototype.toISOString`. -/
def toISOString (d : JSDate) : String :=
  String.mk (pad4 d.year ++ '-' :: pad2 d.month ++ '-' :: pad2 d.day ++
    'T' :: pad2 d.hour ++ ':' :: pad2 d.minute ++ ':' :: pad2 d.second ++
    '.' :: pad3 d.millis ++ ['Z'])

/-- Numeric value of two decimal digit characters. -/
def val2 (a b : Char) : Nat := digitVal a * 10 + digitVal b

/-- Numeric value of three decimal digit characters. -/
def val3 (a b c : Char) : Nat := (digitVal a * 10 + digitVal b) * 10 + digitVal c

/-- Numeric value of four decimal digit characters. -/
def val4 (a b c d : Char) : Nat :=
  ((digitVal a * 10 + digitVal b) * 10 + digitVal c) * 10 + digitVal d

/-- `new Date(string)` on a canonical ISO-8601 UTC string: the components
are read back, and an out-of-range component gives an invalid date
(`none`).  Formats other than the canonical one are not needed here: the
source only parses defaults pre-normalized to ISO strings. -/
def parseIsoChars : List Char → Option JSDate
  | [y1, y2, y3, y4, a1, mo1, mo2, a2, d1, d2, a3, h1, h2, a4,
      mi1, mi2, a5, s1, s2, a6, ms1, ms2, ms3, a7] =>
    if a1 = '-' && a2 = '-' && a3 = 'T' && a4 = ':' && a5 = ':' &&
        a6 = '.' && a7 = 'Z' &&
        y1.isDigit && y2.isDigit && y3.isDigit && y4.isDigit &&
        mo1.isDigit && mo2.isDigit && d1.isDigit && d2.isDigit &&
        h1.isDigit && h2.isDigit && mi1.isDigit && mi2.isDigit &&
        s1.isDigit && s2.isDigit && ms1.isDigit && ms2.isDigit && ms3.isDigit then
      let dt : JSDate :=
        ⟨val4 y1 y2 y3 y4, val2 mo1 mo2, val2 d1 d2,
          val2 h1 h2, val2 mi1 mi2, val2 s1 s2, val3 ms1 ms2 ms3⟩
      if dt.valid then some dt else none
    else none
  | _ => none

/-- `new Date(string)` (restricted to canonical ISO input). -/
def parseIsoDate (s : String) : Option JSDate := parseIsoChars s.toList

/-! ## The storage codecs (`dateType`, `jsonType`) -/

/-- A drizzle `customType` codec: storage type name, encode to the driver
string, decode back (decoding that throws is `none`). -/
structure CustomCodec (α : Type) where
  dataType : String
  toDriver : α → String
  fromDriver : String → Option α

/-! ## `JSON.parse` (embedded from JS semantics)

A recursive-descent reader over the character list, with a fuel counter
for termination.  It is exercised here only on the compact output of
`JSON.stringify` (the stored driver strings), so inter-token whitespace
skipping is elided and numbers are the integral ones the printer above
emits. -/

/-- Consume the literal characters `lit` from the front of the input. -/
def dropLit : List Char → List Char → Option (List Char)
  | [], cs => some cs
  | _ :: _, [] => none
  | p :: ps, c :: cs => if c = p then dropLit ps cs else none

/-- The value of a short JSON escape (after the backslash). -/
def unescapeChar (e : Char) : Option Char :=
  if e = '"' then some '"'
  else if e = '\\' then some '\\'
  else if e = '/' then some '/'
  else if e = 'b' then some '\x08'
  else if e = 'f' then some '\x0c'
  else if e = 'n' then some '\x0a'
  else if e = 'r' then some '\x0d'
  else if e = 't' then some '\x09'
  else none

/-- Whether a character is a hexadecimal digit. -/
def isHexDigitChar (c : Char) : Bool :=
  c.isDigit || (97 ≤ c.toNat && c.toNat ≤ 102) || (65 ≤ c.toNat && c.toNat ≤ 70)

/-- Read a JSON string body after its opening quote; returns the decoded
characters and the input after the closing quote. -/
def parseStringBody : List Char → Option (List Char × List Char)
  | [] => none
  | c :: cs =>
    if c = '"' then some ([], cs)
    else if c = '\\' then
      match cs with
      | [] => none
      | e :: cs2 =>
        if e = 'u' then
          match cs2 with
          | h1 :: h2 :: h3 :: h4 :: cs3 =>
            if isHexDigitChar h1 && isHexDigitChar h2 && isHexDigitChar h3 &&
                isHexDigitChar h4 then
              let code := ((hexVal h1 * 16 + hexVal h2) * 16 + hexVal h3) * 16 + hexVal h4
              if code < 55296 then
                (parseStringBody cs3).map (fun pr => (Char.ofNat code :: pr.1, pr.2))
              else none
            else none
          | _ => none
        else
          match unescapeChar e with
          | some c2 => (parseStringBody cs2).map (fun pr => (c2 :: pr.1, pr.2))
          | none => none
    else (parseStringBody cs).map (fun pr => (c :: pr.1, pr.2))

/-- Split the longest run of leading decimal digits off the input. -/
def spanDigits : List Char → List Char × List Char
  | [] => ([], [])
  | c :: cs =>
    if c.isDigit then
      let pr := spanDigits cs
      (c :: pr.1, pr.2)
    else ([], c :: cs)

/-- Numeric value of a run of decimal digit characters. -/
def digitsVal (ds : List Char) : Nat := ds.foldl (fun a c => a * 10 + digitVal c) 0

/-- Read an integral JSON number. -/
def parseNumberChars : List Char → Option (Int × List Char)
  | [] => none
  | c :: rest =>
    if c = '-' then
      if (spanDigits rest).1 = [] then none
      else some (-(Int.ofNat (digitsVal (spanDigits rest).1)), (spanDigits rest).2)
    else
      if (spanDigits (c :: rest)).1 = [] then none
      else some (Int.ofNat (digitsVal (spanDigits (c :: rest)).1), (spanDigits (c :: rest)).2)

mutual

/-- Read one JSON value; returns it and the remaining input. -/
def parseJsonVal : Nat → List Char → Option (JSValue × List Char)
  | 0, _ => none
  | _ + 1, [] => none
  | fuel + 1, c :: rest =>
    if c = 'n' then (dropLit ['u', 'l', 'l'] rest).map (fun r => (.null, r))
    else if c = 't' then (dropLit ['r', 'u', 'e'] rest).map (fun r => (.bool true, r))
    else if c = 'f' then (dropLit ['a', 'l', 's', 'e'] rest).map (fun r => (.bool false, r))
    else if c = '"' then (parseStringBody rest).map (fun pr => (.str (String.mk pr.1), pr.2))
    else if c = '[' then
      if rest.head? = some ']' then some (.arr [], rest.tail)
      else (parseJsonElems fuel rest).map (fun pr => (.arr pr.1, pr.2))
    else if c = '\x7b' then
      if rest.head? = some '\x7d' then some (.obj [], rest.tail)
      else (parseJsonEntries fuel rest).map (fun pr => (.obj pr.1, pr.2))
    else (parseNumberChars (c :: rest)).map (fun pr => (.num pr.1, pr.2))

/-- Read the non-empty comma-separated elements of an array, consuming the
closing bracket. -/
def parseJsonElems : Nat → List Char → Option (List JSValue × List Char)
  | 0, _ => none
  | fuel + 1, cs =>
    match parseJsonVal fuel cs with
    | none => none
    | some (v, r) =>
      if r.head? = some ',' then
        (parseJsonElems fuel r.tail).map (fun pr => (v :: pr.1, pr.2))
      else if r.head? = some ']' then some ([v], r.tail)
      else none

/-- Read the non-empty comma-separated `"key":value` entries of an object,
consuming the closing brace. -/
def parseJsonEntries : Nat → List Char → Option (List (String × JSValue) × List Char)
  | 0, _ => none
  | _ + 1, [] => none
  | fuel + 1, c :: r1 =>
    if c = '"' then
      match parseStringBody r1 with
      | none => none
      | some (key, r2) =>
        if r2.head? = some ':' then
          match parseJsonVal fuel r2.tail with
          | none => none
          | some (v, r3) =>
            if r3.head? = some ',' then
              (parseJsonEntries fuel r3.tail).map
                (fun pr => ((String.mk key, v) :: pr.1, pr.2))
            else if r3.head? = some '\x7d' then some ([(String.mk key, v)], r3.tail)
            else none
        else none
    else none

end

/-- `JSON.parse` (restricted to the canonical compact form the printer
emits); a parse failure, which `JSON.parse` reports by throwing, is
`none`. -/
def jsonParse (s : String) : Option JSValue :=
  match parseJsonVal (s.toList.length + 1) s.toList with
  | some (v, []) => some v
  | _ => none

/-- The `dateType` custom column type from the source: stores `text`,
encodes with `toISOString`, decodes with `new Date(value)`. -/
def dateType : CustomCodec JSDate :=
  { dataType := "text", toDriver := toISOString, fromDriver := parseIsoDate }

/-- The `jsonType` custom column type from the source: stores `text`,
encodes with `JSON.stringify`, decodes with `JSON.parse`. -/
def jsonType : CustomCodec JSValue :=
  { dataType := "text", toDriver := jsonStringify, fromDriver := jsonParse }

/-! ## The column model (`collectionToTable`, `columnMapper`) -/

/-- nanoid's default url-safe alphabet of 64 characters. -/
def nanoidAlphabet : List Char :=
  "useandom-26T198340PX75pxJACKVERYMINDBUSHWOLF_GQZbfghjklqvwyzrict".toList

/-- `nanoid(size)`: `size` characters drawn from the alphabet by the
random source `rand`. -/
def nanoid (size : Nat) (rand : Nat → Nat) : String :=
  String.mk ((List.range size).map (fun i => nanoidAlphabet.getD (rand i % 64) 'u'))

/-- `generateId` from the source: `nanoid(12)`. -/
def generateId (rand : Nat → Nat) : String := nanoid 12 rand

/-- The physical representation of a column in the model. -/
inductive ColKind where
  | text | integer | integerBool | dateCodec | jsonCodec
deriving DecidableEq

/-- A column's application-level default in the model. -/
inductive ColDefault where
  | str (s : String)
  | int (n : Int)
  | bool (b : Bool)
  | json (v : JSRuntimeValue)
  /-- the SQL fragment `CURRENT_TIMESTAMP` -/
  | currentTimestamp
  /-- a native date value -/
  | date (d : JSDate)
  /-- the insert-time generator `$default(() => generateId())` -/
  | genId

/-- One column builder of the model. -/
structure Column where
  name : String
  kind : ColKind
  dflt : Option ColDefault
  notNull : Bool
  unique : Bool
  primaryKey : Bool

/-- The implicit primary-key column: `text('id').primaryKey().$default(() =>
generateId())`. -/
def idColumn : Column :=
  { name := "id", kind := .text, dflt := some .genId,
    notNull := false, unique := false, primaryKey := true }

/-- The module-level `initialColumns` record. -/
def initialColumns : List (String × Column) := [("id", idColumn)]

/-- `columnMapper` from the source.  `none` models the `ZodError` thrown
by `z.coerce.date().parse` on an unparsable date default. -/
def columnMapper (fieldName : String) (field : DBField) (isJsonSerializable : Bool) :
    Option Column :=
  let base : Option Column :=
    match field with
    | .text _ _ d =>
      some { name := fieldName, kind := .text, dflt := d.map .str,
             notNull := false, unique := false, primaryKey := false }
    | .number _ _ d =>
      some { name := fieldName, kind := .integer, dflt := d.map .int,
             notNull := false, unique := false, primaryKey := false }
    | .boolean _ _ d =>
      some { name := fieldName, kind := .integerBool, dflt := d.map .bool,
             notNull := false, unique := false, primaryKey := false }
    | .json _ _ d =>
      some { name := fieldName, kind := .jsonCodec, dflt := d.map .json,
             notNull := false, unique := false, primaryKey := false }
    | .date _ _ d =>
      -- Parse dates as strings when in JSON serializable mode
      if isJsonSerializable then
        some { name := fieldName, kind := .text,
               dflt := d.map (fun s => if s = "now" then .currentTimestamp else .str s),
               notNull := false, unique := false, primaryKey := false }
      else
        match d with
        | none =>
          some { name := fieldName, kind := .dateCodec, dflt := none,
                 notNull := false, unique := false, primaryKey := false }
        | some s =>
          if s = "now" then
            some { name := fieldName, kind := .dateCodec, dflt := some .currentTimestamp,
                   notNull := false, unique := false, primaryKey := false }
          else
            -- default comes pre-transformed to an ISO string; parse back to a Date
            match parseIsoDate s with
            | some dt =>
              some { name := fieldName, kind := .dateCodec, dflt := some (.date dt),
                     notNull := false, unique := false, primaryKey := false }
            | none => none
  match base with
  | none => none
  | some c => some { c with notNull := !field.optional, unique := field.unique }

/-- Assignment `columns[fieldName] = ...` on a JS object: replace the
binding in place if present, append otherwise. -/
def upsert : List (String × Column) → String → Column → List (String × Column)
  | [], key, v => [(key, v)]
  | (k0, v0) :: rest, key, v =>
    if k0 = key then (k0, v) :: rest else (k0, v0) :: upsert rest key v

/-- A built table: its name and its ordered column record. -/
structure Table where
  name : String
  columns : List (String × Column)

/-- The field loop of `collectionToTable`. -/
def buildColumns (cols : List (String × Column)) :
    List (String × DBField) → Bool → Option (List (String × Column))
  | [], _ => some cols
  | (fieldName, field) :: rest, mode =>
    match columnMapper fieldName field mode with
    | none => none
    | some c => buildColumns (upsert cols fieldName c) rest mode

/-- `collectionToTable` with the module-level `initialColumns` object made
an explicit `store` argument.  The source spreads `initialColumns` into a
fresh object before inserting field columns, so the store comes back
unchanged next to the built table. -/
def collectionToTableFrom (store : List (String × Column)) (name : String)
    (collection : DBCollection) (isJsonSerializable : Bool) :
    Option (List (String × Column) × Table) :=
  match buildColumns store collection.fields isJsonSerializable with
  | none => none
  | some cols => some (store, { name := name, columns := cols })

/-- `collectionToTable` from the source. -/
def collectionToTable (name : String) (collection : DBCollection)
    (isJsonSerializable : Bool) : Option (List (String × Column) × Table) :=
  collectionToTableFrom initialColumns name collection isJsonSerializable

/-! ## Auxiliary notions used only to state and prove the theorems -/

/-- Input that cannot extend a decimal numeral: empty, or starting with a
non-digit. -/
def restOk : List Char → Bool
  | [] => true
  | c :: _ => !c.isDigit

mutual

/-- Fuel sufficient for `parseJsonVal` to read back `v`. -/
def jfuelVal : JSValue → Nat
  | .null | .bool _ | .num _ | .str _ => 1
  | .arr es => 1 + jfuelElems es
  | .obj kvs => 1 + jfuelEntries kvs

/-- Fuel sufficient for `parseJsonElems` to read back `es`. -/
def jfuelElems : List JSValue → Nat
  | [] => 0
  | v :: rest => 1 + max (jfuelVal v) (jfuelElems rest)

/-- Fuel sufficient for `parseJsonEntries` to read back `kvs`. -/
def jfuelEntries : List (String × JSValue) → Nat
  | [] => 0
  | (_, v) :: rest => 1 + max (jfuelVal v) (jfuelEntries rest)

end

/-- The column `columnMapper` builds for a required, non-unique `text`
field with no default; used in concrete instantiations. -/
def sampleTextColumn (fieldName : String) : Column :=
  { name := fieldName, kind := .text, dflt := none,
    notNull := true, unique := false, primaryKey := false }

end AstroDb

namespace AstroDb

/-! # Lemmas on decimal digits and numerals -/

theorem digitChar_clamped (x : Nat) (h : 9 ≤ x) : digitChar x = '9' := by
  have hm : min x 9 = 9 := by omega
  rw [digitChar, hm]

theorem digitChar_isDigit (x : Nat) : (digitChar x).isDigit = true := by
  by_cases h : x < 10
  · exact (by decide : ∀ y, y < 10 → (digitChar y).isDigit = true) x h
  · rw [digitChar_clamped x (by omega)]
    decide

theorem digitVal_digitChar : ∀ x, x < 10 → digitVal (digitChar x) = x := by decide

theorem natDigitsOnto_eq (n : Nat) : ∀ acc, natDigitsOnto n acc = natDigits n ++ acc := by
  induction n using Nat.strong_induction_on with
  | _ n ih =>
    intro acc
    by_cases h : n < 10
    · conv_lhs => rw [natDigitsOnto, if_pos h]
      conv_rhs => rw [natDigits, natDigitsOnto, if_pos h]
      rfl
    · conv_lhs => rw [natDigitsOnto, if_neg h]
      conv_rhs => rw [natDigits, natDigitsOnto, if_neg h]
      rw [ih (n / 10) (by omega), ih (n / 10) (by omega)]
      simp

theorem natDigits_ne_nil (n : Nat) : natDigits n ≠ [] := by
  rw [natDigits, natDigitsOnto]
  by_cases h : n < 10
  · rw [if_pos h]; simp
  · rw [if_neg h, natDigitsOnto_eq]; simp

theorem natDigits_all_digits (n : Nat) : ∀ c ∈ natDigits n, c.isDigit = true := by
  induction n using Nat.strong_induction_on with
  | _ n ih =>
    intro c hc
    rw [natDigits, natDigitsOnto] at hc
    by_cases h : n < 10
    · rw [if_pos h] at hc
      simp at hc
      subst hc
      exact digitChar_isDigit n
    · rw [if_neg h, natDigitsOnto_eq] at hc
      rcases List.mem_append.mp hc with h1 | h2
      · exact ih (n / 10) (by omega) c h1
      · simp at h2
        subst h2
        exact digitChar_isDigit (n % 10)

theorem foldl_natDigits (n : Nat) :
    ∀ a, (natDigits n).foldl (fun a c => a * 10 + digitVal c) a =
      a * 10 ^ (natDigits n).length + n := by
  induction n using Nat.strong_induction_on with
  | _ n ih =>
    intro a
    by_cases h : n < 10
    · have hrepr : natDigits n = [digitChar n] := by
        rw [natDigits, natDigitsOnto, if_pos h]
      rw [hrepr]
      simp [digitVal_digitChar n h]
    · have hsplit : natDigits n = natDigits (n / 10) ++ [digitChar (n % 10)] := by
        rw [natDigits, natDigitsOnto, if_neg h, natDigitsOnto_eq]
      rw [hsplit, List.foldl_append, ih (n / 10) (by omega) a]
      simp only [List.foldl, List.length_append, List.length_singleton,
        digitVal_digitChar (n % 10) (by omega), pow_succ]
      have hmod : n / 10 * 10 + n % 10 = n := by omega
      generalize (10 : Nat) ^ (natDigits (n / 10)).length = T
      calc (a * T + n / 10) * 10 + n % 10 = a * (T * 10) + (n / 10 * 10 + n % 10) := by ring
        _ = a * (T * 10) + n := by rw [hmod]

theorem digitsVal_natDigits (n : Nat) : digitsVal (natDigits n) = n := by
  rw [digitsVal, foldl_natDigits n 0]
  simp

theorem hexChar_clamped (x : Nat) (h : 15 ≤ x) : hexChar x = 'f' := by
  have hm : min x 15 = 15 := by omega
  rw [hexChar, if_neg (by omega), hm]

theorem isHexDigitChar_hexChar (x : Nat) : isHexDigitChar (hexChar x) = true := by
  by_cases h : x < 16
  · exact (by decide : ∀ y, y < 16 → isHexDigitChar (hexChar y) = true) x h
  · rw [hexChar_clamped x (by omega)]
    decide

theorem hexVal_hexChar : ∀ x, x < 16 → hexVal (hexChar x) = x := by decide

theorem mk_toList (s : String) : String.mk s.toList = s := by
  cases s
  rfl

theorem mk_data (s : String) : String.mk s.data = s := rfl

/-! # Lemmas on the token readers -/

theorem dropLit_append (p rest : List Char) : dropLit p (p ++ rest) = some rest := by
  induction p with
  | nil => rfl
  | cons c cs ih => simp [dropLit, ih]

theorem spanDigits_eq (ds rest : List Char) (hds : ∀ c ∈ ds, c.isDigit = true)
    (hrest : restOk rest = true) : spanDigits (ds ++ rest) = (ds, rest) := by
  induction ds with
  | nil =>
    simp only [List.nil_append]
    cases rest with
    | nil => rfl
    | cons c cs =>
      rw [restOk] at hrest
      simp only [Bool.not_eq_eq_eq_not, Bool.not_true] at hrest
      simp [spanDigits, hrest]
  | cons c cs ih =>
    have hc : c.isDigit = true := hds c (by simp)
    have ih2 := ih (fun d hd => hds d (by simp [hd]))
    simp only [List.cons_append, spanDigits, hc, if_true, List.append_eq, ih2]

theorem parseNumberChars_intChars (n : Int) (rest : List Char) (hrest : restOk rest = true) :
    parseNumberChars (intChars n ++ rest) = some (n, rest) := by
  rw [intChars]
  by_cases h : n < 0
  · rw [if_pos h]
    have hspan := spanDigits_eq (natDigits n.natAbs) rest (natDigits_all_digits _) hrest
    have hne := natDigits_ne_nil n.natAbs
    simp [parseNumberChars, hspan, hne, digitsVal_natDigits]
    rw [abs_of_nonpos (le_of_lt h)]
    omega
  · rw [if_neg h]
    obtain ⟨d, ds, hds⟩ := List.exists_cons_of_ne_nil (natDigits_ne_nil n.toNat)
    have hd : d.isDigit = true := natDigits_all_digits n.toNat d (by rw [hds]; simp)
    have hdm : ¬(d = '-') := by
      intro he
      rw [he] at hd
      exact absurd hd (by decide)
    have hspan : spanDigits (d :: (ds ++ rest)) = (d :: ds, rest) := by
      have h0 := spanDigits_eq (natDigits n.toNat) rest (natDigits_all_digits _) hrest
      rw [hds] at h0
      simpa using h0
    have hval : digitsVal (natDigits n.toNat) = n.toNat := digitsVal_natDigits _
    rw [hds] at hval
    rw [hds]
    simp only [List.cons_append, parseNumberChars, if_neg hdm, hspan]
    simp [hval]
    omega

/-! # Lemmas on SQL string escaping -/

theorem sqlLiteralBody_doubleQuotes (cs : List Char) :
    sqlLiteralBody (doubleQuotes cs ++ [squote]) = some cs := by
  induction cs with
  | nil => decide
  | cons c cs ih =>
    by_cases hc : c = squote
    · subst hc
      simp only [doubleQuotes, if_pos rfl, List.cons_append]
      rw [sqlLiteralBody.eq_def]
      simp [ih]
    · simp only [doubleQuotes, if_neg hc, List.cons_append]
      rw [sqlLiteralBody.eq_def]
      simp [hc, ih]

theorem sqlLiteralValue_escapeString (s : String) :
    sqlLiteralValue (escapeString s) = some s := by
  rw [escapeString, sqlLiteralValue]
  show (if squote = squote then
    Option.map String.mk (sqlLiteralBody (doubleQuotes s.toList ++ [squote]))
    else none) = some s
  rw [if_pos rfl, sqlLiteralBody_doubleQuotes]
  simp [mk_toList]

/-! # Lemmas on JSON string escaping -/

theorem parseStringBody_close (rest : List Char) :
    parseStringBody ('"' :: rest) = some ([], rest) := by
  rw [parseStringBody.eq_def]
  simp

theorem parseStringBody_step_esc (e c2 : Char) (he : unescapeChar e = some c2)
    (hu : ¬(e = 'u')) (tl : List Char) :
    parseStringBody ('\\' :: e :: tl) =
      (parseStringBody tl).map (fun pr => (c2 :: pr.1, pr.2)) := by
  rw [parseStringBody.eq_def]
  simp [hu, he]

theorem parseStringBody_step_plain (c : Char) (h1 : ¬(c = '"')) (h2 : ¬(c = '\\'))
    (tl : List Char) :
    parseStringBody (c :: tl) =
      (parseStringBody tl).map (fun pr => (c :: pr.1, pr.2)) := by
  rw [parseStringBody.eq_def]
  simp [h1, h2]

theorem parseStringBody_step_hex (t : Nat) (h : t < 32) (tl : List Char) :
    parseStringBody ('\\' :: 'u' :: '0' :: '0' :: hexChar (t / 16) :: hexChar (t % 16) :: tl) =
      (parseStringBody tl).map (fun pr => (Char.ofNat t :: pr.1, pr.2)) := by
  rw [parseStringBody.eq_def]
  have hdiv : t / 16 < 16 := by omega
  have hmod : t % 16 < 16 := by omega
  have h16 : t / 16 * 16 + t % 16 = t := by omega
  have h55 : t < 55296 := by omega
  have h0 : isHexDigitChar '0' = true := by decide
  have hv0 : hexVal '0' = 0 := by decide
  simp [isHexDigitChar_hexChar, hexVal_hexChar _ hdiv, hexVal_hexChar _ hmod,
    h0, hv0, h16, h55]

theorem parseStringBody_complete (cs : List Char) (rest : List Char) :
    parseStringBody ((cs.map jsonEscapeChar).flatten ++ '"' :: rest) = some (cs, rest) := by
  induction cs with
  | nil =>
    simpa using parseStringBody_close rest
  | cons c cs ih =>
    simp only [List.map_cons, List.flatten_cons, List.append_assoc]
    rw [jsonEscapeChar]
    by_cases h1 : c = '"'
    · subst h1
      rw [if_pos rfl]
      simp only [List.cons_append, List.nil_append]
      rw [parseStringBody_step_esc '"' '"' (by decide) (by decide), ih]
      rfl
    · rw [if_neg h1]
      by_cases h2 : c = '\\'
      · subst h2
        rw [if_pos rfl]
        simp only [List.cons_append, List.nil_append]
        rw [parseStringBody_step_esc '\\' '\\' (by decide) (by decide), ih]
        rfl
      · rw [if_neg h2]
        by_cases h3 : c = '\x08'
        · subst h3
          rw [if_pos rfl]
          simp only [List.cons_append, List.nil_append]
          rw [parseStringBody_step_esc 'b' '\x08' (by decide) (by decide), ih]
          rfl
        · rw [if_neg h3]
          by_cases h4 : c = '\x09'
          · subst h4
            rw [if_pos rfl]
            simp only [List.cons_append, List.nil_append]
            rw [parseStringBody_step_esc 't' '\x09' (by decide) (by decide), ih]
            rfl
          · rw [if_neg h4]
            by_cases h5 : c = '\x0a'
            · subst h5
              rw [if_pos rfl]
              simp only [List.cons_append, List.nil_append]
              rw [parseStringBody_step_esc 'n' '\x0a' (by decide) (by decide), ih]
              rfl
            · rw [if_neg h5]
              by_cases h6 : c = '\x0c'
              · subst h6
                rw [if_pos rfl]
                simp only [List.cons_append, List.nil_append]
                rw [parseStringBody_step_esc 'f' '\x0c' (by decide) (by decide), ih]
                rfl
              · rw [if_neg h6]
                by_cases h7 : c = '\x0d'
                · subst h7
                  rw [if_pos rfl]
                  simp only [List.cons_append, List.nil_append]
                  rw [parseStringBody_step_esc 'r' '\x0d' (by decide) (by decide), ih]
                  rfl
                · rw [if_neg h7]
                  by_cases h8 : c.toNat < 32
                  · rw [if_pos h8]
                    simp only [List.cons_append, List.nil_append]
                    rw [parseStringBody_step_hex c.toNat h8, ih]
                    simp
                  · rw [if_neg h8]
                    simp only [List.cons_append, List.nil_append]
                    rw [parseStringBody_step_plain c h1 h2, ih]
                    rfl

/-! # Equations and head facts for the JSON printer -/

theorem jsonChars_null : jsonChars .null = ['n', 'u', 'l', 'l'] := by
  rw [jsonChars.eq_def]
  rfl

theorem jsonChars_bool (b : Bool) :
    jsonChars (.bool b) = if b then ['t', 'r', 'u', 'e'] else ['f', 'a', 'l', 's', 'e'] := by
  cases b <;> (rw [jsonChars.eq_def]; rfl)

theorem jsonChars_num (n : Int) : jsonChars (.num n) = intChars n := by
  rw [jsonChars.eq_def]

theorem jsonChars_str (s : String) : jsonChars (.str s) = jsonQuoteChars s := by
  rw [jsonChars.eq_def]

theorem jsonChars_arr (es : List JSValue) :
    jsonChars (.arr es) = '[' :: jsonCharsElems es ++ [']'] := by
  rw [jsonChars.eq_def]

theorem jsonChars_obj (kvs : List (String × JSValue)) :
    jsonChars (.obj kvs) = '\x7b' :: jsonCharsEntries kvs ++ ['\x7d'] := by
  rw [jsonChars.eq_def]

theorem jsonCharsElems_nil : jsonCharsElems [] = [] := by
  rw [jsonCharsElems.eq_def]

theorem jsonCharsElems_single (v : JSValue) : jsonCharsElems [v] = jsonChars v := by
  rw [jsonCharsElems.eq_def]

theorem jsonCharsElems_cons (v w : JSValue) (tail : List JSValue) :
    jsonCharsElems (v :: w :: tail) = jsonChars v ++ ',' :: jsonCharsElems (w :: tail) := by
  rw [jsonCharsElems.eq_def]

theorem jsonCharsEntries_nil : jsonCharsEntries [] = [] := by
  rw [jsonCharsEntries.eq_def]

theorem jsonCharsEntries_single (k : String) (v : JSValue) :
    jsonCharsEntries [(k, v)] = jsonQuoteChars k ++ ':' :: jsonChars v := by
  rw [jsonCharsEntries.eq_def]

theorem jsonCharsEntries_cons (k : String) (v : JSValue) (kv2 : String × JSValue)
    (tail : List (String × JSValue)) :
    jsonCharsEntries ((k, v) :: kv2 :: tail) =
      jsonQuoteChars k ++ ':' :: jsonChars v ++ ',' :: jsonCharsEntries (kv2 :: tail) := by
  rw [jsonCharsEntries.eq_def]

theorem intChars_ne_nil (n : Int) : intChars n ≠ [] := by
  rw [intChars]
  by_cases h : n < 0
  · rw [if_pos h]; simp
  · rw [if_neg h]; exact natDigits_ne_nil _

theorem jsonChars_ne_nil (v : JSValue) : jsonChars v ≠ [] := by
  cases v with
  | null => rw [jsonChars_null]; simp
  | bool b => rw [jsonChars_bool]; cases b <;> simp
  | num n => rw [jsonChars_num]; exact intChars_ne_nil n
  | str s => rw [jsonChars_str, jsonQuoteChars]; simp
  | arr es => rw [jsonChars_arr]; simp
  | obj kvs => rw [jsonChars_obj]; simp

theorem jsonChars_head_ne_rbracket (v : JSValue) :
    ∀ d ds, jsonChars v = d :: ds → ¬(d = ']') := by
  intro d ds hds hd
  subst hd
  cases v with
  | null => rw [jsonChars_null] at hds; simp at hds
  | bool b => rw [jsonChars_bool] at hds; cases b <;> simp at hds
  | num n =>
    rw [jsonChars_num, intChars] at hds
    by_cases h : n < 0
    · rw [if_pos h] at hds
      simp at hds
    · rw [if_neg h] at hds
      have : (']' : Char).isDigit = true :=
        natDigits_all_digits n.toNat ']' (by rw [hds]; simp)
      exact absurd this (by decide)
  | str s => rw [jsonChars_str, jsonQuoteChars] at hds; simp at hds
  | arr es => rw [jsonChars_arr] at hds; simp at hds
  | obj kvs => rw [jsonChars_obj] at hds; simp at hds

theorem isDigit_ne_starters (d : Char) (hd : d.isDigit = true) :
    ¬(d = 'n') ∧ ¬(d = 't') ∧ ¬(d = 'f') ∧ ¬(d = '"') ∧ ¬(d = '[') ∧ ¬(d = '\x7b') := by
  refine ⟨?_, ?_, ?_, ?_, ?_, ?_⟩ <;> rintro rfl <;> exact absurd hd (by decide)


theorem jsonCharsElems_head (v : JSValue) (tail : List JSValue) :
    ∃ ds, jsonCharsElems (v :: tail) = jsonChars v ++ ds := by
  cases tail with
  | nil => exact ⟨[], by rw [jsonCharsElems_single]; simp⟩
  | cons w t2 => exact ⟨_, jsonCharsElems_cons v w t2⟩

theorem jsonCharsEntries_head (k : String) (v : JSValue) (tail : List (String × JSValue)) :
    ∃ ds, jsonCharsEntries ((k, v) :: tail) = jsonQuoteChars k ++ ds := by
  cases tail with
  | nil => exact ⟨_, jsonCharsEntries_single k v⟩
  | cons kv2 t2 =>
    refine ⟨(':' :: jsonChars v) ++ ',' :: jsonCharsEntries (kv2 :: t2), ?_⟩
    rw [jsonCharsEntries_cons, List.append_assoc]

theorem jfuelVal_arr (es : List JSValue) : jfuelVal (.arr es) = 1 + jfuelElems es := by
  rw [jfuelVal.eq_def]

theorem jfuelVal_obj (kvs : List (String × JSValue)) :
    jfuelVal (.obj kvs) = 1 + jfuelEntries kvs := by
  rw [jfuelVal.eq_def]

theorem jfuelElems_eq (v : JSValue) (tail : List JSValue) :
    jfuelElems (v :: tail) = 1 + max (jfuelVal v) (jfuelElems tail) := by
  rw [jfuelElems.eq_def]

theorem jfuelEntries_eq (k : String) (v : JSValue) (tail : List (String × JSValue)) :
    jfuelEntries ((k, v) :: tail) = 1 + max (jfuelVal v) (jfuelEntries tail) := by
  rw [jfuelEntries.eq_def]

theorem jfuelVal_pos (v : JSValue) : 1 ≤ jfuelVal v := by
  cases v with
  | null => rw [jfuelVal.eq_def]
  | bool b => rw [jfuelVal.eq_def]
  | num n => rw [jfuelVal.eq_def]
  | str s => rw [jfuelVal.eq_def]
  | arr es => rw [jfuelVal_arr]; omega
  | obj kvs => rw [jfuelVal_obj]; omega

/-! # Completeness of the JSON reader on the printer output -/

mutual

theorem parseJsonVal_complete (v : JSValue) (fuel : Nat) (hfuel : jfuelVal v ≤ fuel)
    (rest : List Char) (hrest : restOk rest = true) :
    parseJsonVal fuel (jsonChars v ++ rest) = some (v, rest) := by
  obtain ⟨f, rfl⟩ : ∃ f, fuel = f + 1 := by
    cases fuel with
    | zero => exact absurd hfuel (by have := jfuelVal_pos v; omega)
    | succ f => exact ⟨f, rfl⟩
  cases v with
  | null =>
    have hdrop := dropLit_append ['u', 'l', 'l'] rest
    simp only [List.cons_append, List.nil_append] at hdrop
    rw [jsonChars_null]
    simp only [List.cons_append, List.nil_append]
    rw [parseJsonVal.eq_def]
    simp [hdrop]
  | bool b =>
    cases b with
    | true =>
      have hdrop := dropLit_append ['r', 'u', 'e'] rest
      simp only [List.cons_append, List.nil_append] at hdrop
      rw [jsonChars_bool]
      simp only [if_true, List.cons_append, List.nil_append]
      rw [parseJsonVal.eq_def]
      simp [hdrop]
    | false =>
      have hdrop := dropLit_append ['a', 'l', 's', 'e'] rest
      simp only [List.cons_append, List.nil_append] at hdrop
      rw [jsonChars_bool]
      simp only [Bool.false_eq_true, if_false, List.cons_append, List.nil_append]
      rw [parseJsonVal.eq_def]
      simp [hdrop]
  | num n =>
    rw [jsonChars_num]
    have hnum := parseNumberChars_intChars n rest hrest
    rw [intChars] at hnum ⊢
    by_cases h : n < 0
    · rw [if_pos h] at hnum ⊢
      simp only [List.cons_append] at hnum ⊢
      rw [parseJsonVal.eq_def]
      simp [hnum]
    · rw [if_neg h] at hnum ⊢
      obtain ⟨d, ds, hds⟩ := List.exists_cons_of_ne_nil (natDigits_ne_nil n.toNat)
      have hd : d.isDigit = true := natDigits_all_digits _ d (by rw [hds]; simp)
      obtain ⟨g1, g2, g3, g4, g5, g6⟩ := isDigit_ne_starters d hd
      rw [hds] at hnum ⊢
      simp only [List.cons_append] at hnum ⊢
      rw [parseJsonVal.eq_def]
      simp [g1, g2, g3, g4, g5, g6, hnum]
  | str s =>
    have hbody := parseStringBody_complete s.data rest
    rw [jsonChars_str, jsonQuoteChars]
    simp only [List.cons_append, List.append_assoc, List.singleton_append]
    rw [parseJsonVal.eq_def]
    simp [hbody, mk_data]
  | arr es =>
    cases es with
    | nil =>
      rw [jsonChars_arr, jsonCharsElems_nil]
      simp only [List.nil_append, List.cons_append, List.singleton_append]
      rw [parseJsonVal.eq_def]
      simp
    | cons v0 tail =>
      have hfe : jfuelElems (v0 :: tail) ≤ f := by
        rw [jfuelVal_arr] at hfuel
        omega
      obtain ⟨d, dtl, hd⟩ := List.exists_cons_of_ne_nil (jsonChars_ne_nil v0)
      have hdne := jsonChars_head_ne_rbracket v0 d dtl hd
      obtain ⟨tds, htds⟩ := jsonCharsElems_head v0 tail
      have h1 : jsonCharsElems (v0 :: tail) = d :: (dtl ++ tds) := by
        rw [htds, hd]
        simp
      have helems := parseJsonElems_complete v0 tail f hfe rest
      rw [h1] at helems
      simp only [List.cons_append, List.append_assoc] at helems
      rw [jsonChars_arr, h1]
      simp only [List.cons_append, List.append_assoc, List.singleton_append]
      rw [parseJsonVal.eq_def]
      simp [hdne, helems]
  | obj kvs =>
    cases kvs with
    | nil =>
      rw [jsonChars_obj, jsonCharsEntries_nil]
      simp only [List.nil_append, List.cons_append, List.singleton_append]
      rw [parseJsonVal.eq_def]
      simp
    | cons kv0 tail =>
      obtain ⟨k0, v0⟩ := kv0
      have hfe : jfuelEntries ((k0, v0) :: tail) ≤ f := by
        rw [jfuelVal_obj] at hfuel
        omega
      obtain ⟨tds, htds⟩ := jsonCharsEntries_head k0 v0 tail
      have h1 : jsonCharsEntries ((k0, v0) :: tail) =
          '"' :: ((k0.data.map jsonEscapeChar).flatten ++ '"' :: tds) := by
        rw [htds, jsonQuoteChars]
        simp
      have hentries := parseJsonEntries_complete k0 v0 tail f hfe rest
      rw [h1] at hentries
      simp only [List.cons_append, List.append_assoc] at hentries
      rw [jsonChars_obj, h1]
      simp only [List.cons_append, List.append_assoc, List.singleton_append]
      rw [parseJsonVal.eq_def]
      simp [hentries]
termination_by fuel
decreasing_by all_goals (simp_wf; omega)

theorem parseJsonElems_complete (v : JSValue) (tail : List JSValue) (fuel : Nat)
    (hfuel : jfuelElems (v :: tail) ≤ fuel) (rest : List Char) :
    parseJsonElems fuel (jsonCharsElems (v :: tail) ++ ']' :: rest) =
      some (v :: tail, rest) := by
  obtain ⟨f, rfl⟩ : ∃ f, fuel = f + 1 := by
    cases fuel with
    | zero =>
      rw [jfuelElems_eq] at hfuel
      omega
    | succ f => exact ⟨f, rfl⟩
  have hfv : jfuelVal v ≤ f := by
    rw [jfuelElems_eq] at hfuel
    omega
  cases tail with
  | nil =>
    have hval := parseJsonVal_complete v f hfv (']' :: rest) rfl
    rw [jsonCharsElems_single]
    rw [parseJsonElems.eq_def]
    simp [hval]
  | cons w t2 =>
    have hfe2 : jfuelElems (w :: t2) ≤ f := by
      rw [jfuelElems_eq] at hfuel
      omega
    have hval := parseJsonVal_complete v f hfv
      (',' :: (jsonCharsElems (w :: t2) ++ ']' :: rest)) rfl
    have htl := parseJsonElems_complete w t2 f hfe2 rest
    rw [jsonCharsElems_cons]
    simp only [List.cons_append, List.append_assoc] at hval ⊢
    rw [parseJsonElems.eq_def]
    simp [hval, htl]
termination_by fuel
decreasing_by all_goals (simp_wf; omega)

theorem parseJsonEntries_complete (k : String) (v : JSValue) (tail : List (String × JSValue))
    (fuel : Nat) (hfuel : jfuelEntries ((k, v) :: tail) ≤ fuel) (rest : List Char) :
    parseJsonEntries fuel (jsonCharsEntries ((k, v) :: tail) ++ '\x7d' :: rest) =
      some ((k, v) :: tail, rest) := by
  obtain ⟨f, rfl⟩ : ∃ f, fuel = f + 1 := by
    cases fuel with
    | zero =>
      rw [jfuelEntries_eq] at hfuel
      omega
    | succ f => exact ⟨f, rfl⟩
  have hfv : jfuelVal v ≤ f := by
    rw [jfuelEntries_eq] at hfuel
    omega
  cases tail with
  | nil =>
    have hbody := parseStringBody_complete k.data (':' :: (jsonChars v ++ '\x7d' :: rest))
    have hval := parseJsonVal_complete v f hfv ('\x7d' :: rest) rfl
    rw [jsonCharsEntries_single, jsonQuoteChars]
    simp only [List.cons_append, List.append_assoc, List.singleton_append]
    rw [parseJsonEntries.eq_def]
    simp [hbody, hval, mk_data]
  | cons kv2 t2 =>
    obtain ⟨k2, v2⟩ := kv2
    have hfe2 : jfuelEntries ((k2, v2) :: t2) ≤ f := by
      rw [jfuelEntries_eq] at hfuel
      omega
    have hbody := parseStringBody_complete k.data
      (':' :: (jsonChars v ++ ',' :: (jsonCharsEntries ((k2, v2) :: t2) ++ '\x7d' :: rest)))
    have hval := parseJsonVal_complete v f hfv
      (',' :: (jsonCharsEntries ((k2, v2) :: t2) ++ '\x7d' :: rest)) rfl
    have htl := parseJsonEntries_complete k2 v2 t2 f hfe2 rest
    rw [jsonCharsEntries_cons, jsonQuoteChars]
    simp only [List.cons_append, List.append_assoc, List.singleton_append] at hval ⊢
    rw [parseJsonEntries.eq_def]
    simp [hbody, hval, htl, mk_data]
termination_by fuel
decreasing_by all_goals (simp_wf; omega)

end

/-! # Fuel bounds and the top-level JSON round trip -/

theorem jfuelVal_null : jfuelVal .null = 1 := by rw [jfuelVal.eq_def]

theorem jfuelVal_bool (b : Bool) : jfuelVal (.bool b) = 1 := by rw [jfuelVal.eq_def]

theorem jfuelVal_num (n : Int) : jfuelVal (.num n) = 1 := by rw [jfuelVal.eq_def]

theorem jfuelVal_str (s : String) : jfuelVal (.str s) = 1 := by rw [jfuelVal.eq_def]

theorem jfuelElems_nil : jfuelElems [] = 0 := by rw [jfuelElems.eq_def]

theorem jfuelEntries_nil : jfuelEntries [] = 0 := by rw [jfuelEntries.eq_def]

mutual

theorem jfuelVal_le : ∀ (v : JSValue), jfuelVal v ≤ (jsonChars v).length
  | .null => by rw [jfuelVal_null, jsonChars_null]; simp
  | .bool b => by
    rw [jfuelVal_bool, jsonChars_bool]
    cases b <;> simp
  | .num n => by
    rw [jfuelVal_num, jsonChars_num]
    have h1 := intChars_ne_nil n
    have h2 := List.length_pos.mpr h1
    omega
  | .str s => by
    rw [jfuelVal_str, jsonChars_str, jsonQuoteChars]
    simp
  | .arr es => by
    rw [jfuelVal_arr, jsonChars_arr]
    have h := jfuelElems_le es
    simp only [List.cons_append, List.length_cons, List.length_append,
      List.length_singleton]
    omega
  | .obj kvs => by
    rw [jfuelVal_obj, jsonChars_obj]
    have h := jfuelEntries_le kvs
    simp only [List.cons_append, List.length_cons, List.length_append,
      List.length_singleton]
    omega

theorem jfuelElems_le : ∀ (es : List JSValue), jfuelElems es ≤ (jsonCharsElems es).length + 1
  | [] => by rw [jfuelElems_nil, jsonCharsElems_nil]; simp
  | [v] => by
    rw [jfuelElems_eq, jfuelElems_nil, jsonCharsElems_single]
    have h := jfuelVal_le v
    omega
  | v :: w :: t => by
    rw [jfuelElems_eq, jsonCharsElems_cons]
    have h1 := jfuelVal_le v
    have h2 := jfuelElems_le (w :: t)
    simp only [List.length_append, List.length_cons]
    omega

theorem jfuelEntries_le :
    ∀ (kvs : List (String × JSValue)), jfuelEntries kvs ≤ (jsonCharsEntries kvs).length + 1
  | [] => by rw [jfuelEntries_nil, jsonCharsEntries_nil]; simp
  | [(k, v)] => by
    rw [jfuelEntries_eq, jfuelEntries_nil, jsonCharsEntries_single]
    have h := jfuelVal_le v
    simp only [List.length_append, List.length_cons]
    omega
  | (k, v) :: kv2 :: t => by
    rw [jfuelEntries_eq, jsonCharsEntries_cons]
    have h1 := jfuelVal_le v
    have h2 := jfuelEntries_le (kv2 :: t)
    simp only [List.length_append, List.length_cons]
    omega

end

theorem jsonParse_jsonStringify (v : JSValue) : jsonParse (jsonStringify v) = some v := by
  have hfuel : jfuelVal v ≤ (jsonChars v).length + 1 := by
    have := jfuelVal_le v
    omega
  have h := parseJsonVal_complete v ((jsonChars v).length + 1) hfuel [] rfl
  rw [List.append_nil] at h
  have hs : (String.mk (jsonChars v)).toList = jsonChars v := rfl
  simp only [jsonStringify, jsonParse, hs]
  rw [h]

/-! # The ISO-8601 round trip for dates -/

theorem val2_pad2 (n : Nat) (h : n < 100) :
    val2 (digitChar (n / 10 % 10)) (digitChar (n % 10)) = n := by
  rw [val2, digitVal_digitChar _ (by omega), digitVal_digitChar _ (by omega)]
  omega

theorem val3_pad3 (n : Nat) (h : n < 1000) :
    val3 (digitChar (n / 100 % 10)) (digitChar (n / 10 % 10)) (digitChar (n % 10)) = n := by
  rw [val3, digitVal_digitChar _ (by omega), digitVal_digitChar _ (by omega),
    digitVal_digitChar _ (by omega)]
  omega

theorem val4_pad4 (n : Nat) (h : n < 10000) :
    val4 (digitChar (n / 1000 % 10)) (digitChar (n / 100 % 10))
      (digitChar (n / 10 % 10)) (digitChar (n % 10)) = n := by
  rw [val4, digitVal_digitChar _ (by omega), digitVal_digitChar _ (by omega),
    digitVal_digitChar _ (by omega), digitVal_digitChar _ (by omega)]
  omega

theorem parseIsoDate_toISOString (d : JSDate) (h : d.valid) :
    parseIsoDate (toISOString d) = some d := by
  obtain ⟨hy, hm1, hm2, hd1, hd2, hh, hmi, hs, hms⟩ := h
  have hmo : d.month < 100 := by omega
  have hdy : d.day < 100 := by
    have : daysInMonth d.year d.month ≤ 31 := by
      rw [daysInMonth]
      split
      · split <;> omega
      · split <;> omega
    omega
  have e4 := val4_pad4 d.year hy
  have emo := val2_pad2 d.month hmo
  have edy := val2_pad2 d.day hdy
  have ehh := val2_pad2 d.hour (by omega)
  have emi := val2_pad2 d.minute (by omega)
  have ess := val2_pad2 d.second (by omega)
  have ems := val3_pad3 d.millis (by omega)
  have hvalid : JSDate.valid
      ⟨d.year, d.month, d.day, d.hour, d.minute, d.second, d.millis⟩ :=
    ⟨hy, hm1, hm2, hd1, hd2, hh, hmi, hs, hms⟩
  rw [parseIsoDate, toISOString]
  have hlist : (String.mk (pad4 d.year ++ '-' :: pad2 d.month ++ '-' :: pad2 d.day ++
      'T' :: pad2 d.hour ++ ':' :: pad2 d.minute ++ ':' :: pad2 d.second ++
      '.' :: pad3 d.millis ++ ['Z'])).toList =
    pad4 d.year ++ '-' :: pad2 d.month ++ '-' :: pad2 d.day ++
      'T' :: pad2 d.hour ++ ':' :: pad2 d.minute ++ ':' :: pad2 d.second ++
      '.' :: pad3 d.millis ++ ['Z'] := rfl
  rw [hlist]
  simp only [pad4, pad3, pad2, List.cons_append, List.append_assoc, List.nil_append,
    List.singleton_append]
  rw [parseIsoChars]
  simp [digitChar_isDigit, e4, emo, edy, ehh, emi, ess, ems, hvalid]

/-! # Structure of the generated DDL -/

theorem columnClauses_ok (fields : List (String × DBField)) (qs : List String)
    (h : columnClauses fields = .ok qs) :
    qs.length = fields.length ∧
    List.Forall₂ (fun (nf : String × DBField) (q : String) => ∃ mods,
      getModifiers nf.1 nf.2 = .ok mods ∧
      q = escapeName nf.1 ++ " " ++ schemaTypeToSqlType nf.2.type ++ mods) fields qs := by
  induction fields generalizing qs with
  | nil =>
    rw [columnClauses] at h
    cases h
    simp
  | cons nf rest ih =>
    obtain ⟨n, f⟩ := nf
    rw [columnClauses] at h
    cases hcc : columnClause n f with
    | exited c m => rw [hcc] at h; cases h
    | ok q =>
      rw [hcc] at h
      cases hrest : columnClauses rest with
      | exited c m => rw [hrest] at h; cases h
      | ok qs2 =>
        rw [hrest] at h
        cases h
        obtain ⟨hlen, hall⟩ := ih qs2 hrest
        refine ⟨by simp [hlen], ?_⟩
        refine List.Forall₂.cons ?_ hall
        rw [columnClause] at hcc
        cases hm : getModifiers n f with
        | exited c m => rw [hm] at hcc; cases hcc
        | ok mods =>
          rw [hm] at hcc
          cases hcc
          exact ⟨mods, rfl, rfl⟩

theorem getCreateTableQuery_ok (name : String) (coll : DBCollection) (qs : List String)
    (h : columnClauses coll.fields = .ok qs) :
    getCreateTableQuery name coll = .ok ("CREATE TABLE " ++ escapeName name ++ " (" ++
      String.intercalate ", " ("\"id\" text PRIMARY KEY" :: qs) ++ ")") := by
  rw [getCreateTableQuery, h]

theorem getModifiers_char (cn : String) (col : DBField) :
    getModifiers cn col =
      if col.hasDefault then
        match getDefaultValueSql cn col with
        | .ok lit => .ok ((if col.optional then "" else " NOT NULL") ++
            (if col.unique then " UNIQUE" else "") ++ (" DEFAULT " ++ lit))
        | .exited c m => .exited c m
      else .ok ((if col.optional then "" else " NOT NULL") ++
        (if col.unique then " UNIQUE" else "")) := by
  rw [getModifiers]
  cases hopt : col.optional <;> cases huni : col.unique <;>
    cases hd : col.hasDefault <;>
      simp only [Bool.not_false, Bool.not_true, if_true, if_false, Bool.false_eq_true,
        String.append_empty, String.empty_append] <;>
    (try cases hq : getDefaultValueSql cn col) <;>
      simp [String.append_assoc] <;>
    (rw [← String.append_assoc]; simp)

theorem squote_not_mem_natDigits (m : Nat) : squote ∉ natDigits m := by
  intro hmem
  have := natDigits_all_digits m squote hmem
  exact absurd this (by decide)

theorem squote_not_mem_intChars (n : Int) : squote ∉ intChars n := by
  rw [intChars]
  by_cases h : n < 0
  · rw [if_pos h]
    intro hmem
    rcases List.mem_cons.mp hmem with heq | htl
    · exact absurd heq (by decide)
    · exact squote_not_mem_natDigits _ htl
  · rw [if_neg h]
    exact squote_not_mem_natDigits _

/-! # The column model: keys of the built record -/

theorem upsert_map_fst_mem (cols : List (String × Column)) (k : String) (v : Column)
    (n : String) :
    n ∈ (upsert cols k v).map Prod.fst ↔ n = k ∨ n ∈ cols.map Prod.fst := by
  induction cols with
  | nil => simp [upsert]
  | cons kv0 rest ih =>
    obtain ⟨k0, v0⟩ := kv0
    by_cases hk : k0 = k
    · subst hk
      simp [upsert]
    · simp only [upsert, if_neg hk, List.map_cons, List.mem_cons, ih]
      tauto

theorem upsert_map_fst_of_not_mem (cols : List (String × Column)) (k : String) (v : Column)
    (hk : k ∉ cols.map Prod.fst) :
    (upsert cols k v).map Prod.fst = cols.map Prod.fst ++ [k] := by
  induction cols with
  | nil => simp [upsert]
  | cons kv0 rest ih =>
    obtain ⟨k0, v0⟩ := kv0
    simp only [List.map_cons, List.mem_cons] at hk
    push_neg at hk
    obtain ⟨hk0, hkrest⟩ := hk
    have hne : ¬(k0 = k) := fun he => hk0 he.symm
    simp only [upsert, if_neg hne, List.map_cons, ih hkrest, List.cons_append]

theorem buildColumns_map_fst_mem (fields : List (String × DBField)) (mode : Bool) :
    ∀ (cols cols2 : List (String × Column)),
      buildColumns cols fields mode = some cols2 →
      ∀ n, n ∈ cols2.map Prod.fst ↔ n ∈ cols.map Prod.fst ∨ n ∈ fields.map Prod.fst := by
  induction fields with
  | nil =>
    intro cols cols2 h n
    rw [buildColumns] at h
    cases h
    simp
  | cons nf rest ih =>
    intro cols cols2 h n
    obtain ⟨fn, f⟩ := nf
    rw [buildColumns] at h
    cases hcm : columnMapper fn f mode with
    | none => rw [hcm] at h; cases h
    | some c =>
      rw [hcm] at h
      have := ih (upsert cols fn c) cols2 h n
      rw [this, upsert_map_fst_mem]
      simp
      tauto

theorem buildColumns_map_fst_ordered (fields : List (String × DBField)) (mode : Bool) :
    ∀ (cols cols2 : List (String × Column)),
      buildColumns cols fields mode = some cols2 →
      (fields.map Prod.fst).Nodup →
      (∀ n ∈ fields.map Prod.fst, n ∉ cols.map Prod.fst) →
      cols2.map Prod.fst = cols.map Prod.fst ++ fields.map Prod.fst := by
  induction fields with
  | nil =>
    intro cols cols2 h _ _
    rw [buildColumns] at h
    cases h
    simp
  | cons nf rest ih =>
    intro cols cols2 h hnodup hdisj
    obtain ⟨fn, f⟩ := nf
    rw [buildColumns] at h
    cases hcm : columnMapper fn f mode with
    | none => rw [hcm] at h; cases h
    | some c =>
      rw [hcm] at h
      simp only [List.map_cons, List.nodup_cons] at hnodup
      obtain ⟨hfn, hnodup2⟩ := hnodup
      have hup := upsert_map_fst_of_not_mem cols fn c
        (hdisj fn (by simp))
      have hdisj2 : ∀ n ∈ rest.map Prod.fst, n ∉ (upsert cols fn c).map Prod.fst := by
        intro n hn
        rw [hup]
        simp only [List.mem_append, List.mem_singleton]
        rintro (hmem | rfl)
        · exact hdisj n (by simp [hn]) hmem
        · exact hfn hn
      have := ih (upsert cols fn c) cols2 h hnodup2 hdisj2
      rw [this, hup]
      simp

/-! # The claims -/

/-- C1: the spec says a `json` field whose default is not JSON-serializable
(for example a cyclic reference) must fail compilation with a
`SerializationError` returned synchronously to the caller.  The code instead
prints a diagnostic naming the field and calls `process.exit(0)`,
terminating the whole process (with a success exit code); no error value
ever reaches the caller.  This theorem evaluates the compiler at the
failing input and exhibits the process-exit outcome. -/
theorem C1_cyclic_json_default_terminates_process :
    getCreateTableQuery "posts" ⟨[("data", .json false false (some .cyclicObject))]⟩ =
      .exited 0 ("Invalid default value for column " ++ bold "data" ++
        ". Defaults must be valid JSON when using the `json()` type.") := rfl

/-- C2 counterexample: `createDbTables` interpolates the raw collection
name into its `DROP TABLE IF EXISTS` statement — for the collection name
`zz` the emitted statement contains `zz` only unescaped, never in the
dialect-quoted form `"zz"`.  This refutes the claim that every emitted DDL
statement contains user-controlled identifiers only in escaped form. -/
theorem C2_drop_statement_unescaped :
    createDbTablesQueries [("zz", ⟨[]⟩)] =
      .ok ["DROP TABLE IF EXISTS zz", "CREATE TABLE \"zz\" (\"id\" text PRIMARY KEY)"] ∧
    ("zz".toList <:+: "DROP TABLE IF EXISTS zz".toList) ∧
    ¬((escapeName "zz").toList <:+: "DROP TABLE IF EXISTS zz".toList) := by
  refine ⟨rfl, ?_, ?_⟩ <;> decide

/-- C2 (amended): in the `CREATE TABLE` statements built by
`getCreateTableQuery`, the table name and every column name enter the
statement only through the dialect's `escapeName`; the `DROP TABLE`
statement of `createDbTables`, however, interpolates the raw name. -/
theorem C2_create_table_identifiers_escaped (name : String) (coll : DBCollection)
    (qs : List String) (h : columnClauses coll.fields = .ok qs) :
    getCreateTableQuery name coll = .ok ("CREATE TABLE " ++ escapeName name ++ " (" ++
      String.intercalate ", " ("\"id\" text PRIMARY KEY" :: qs) ++ ")") ∧
    List.Forall₂ (fun (nf : String × DBField) (q : String) => ∃ mods,
      getModifiers nf.1 nf.2 = .ok mods ∧
      q = escapeName nf.1 ++ " " ++ schemaTypeToSqlType nf.2.type ++ mods) coll.fields qs :=
  ⟨getCreateTableQuery_ok name coll qs h, (columnClauses_ok coll.fields qs h).2⟩

theorem C2_create_table_identifiers_escaped_witness :
    getCreateTableQuery "t" ⟨[("a", .text false false none)]⟩ =
      .ok ("CREATE TABLE " ++ escapeName "t" ++ " (" ++
        String.intercalate ", " ("\"id\" text PRIMARY KEY" :: ["\"a\" text NOT NULL"]) ++ ")") ∧
    List.Forall₂ (fun (nf : String × DBField) (q : String) => ∃ mods,
      getModifiers nf.1 nf.2 = .ok mods ∧
      q = escapeName nf.1 ++ " " ++ schemaTypeToSqlType nf.2.type ++ mods)
      [("a", DBField.text false false none)] ["\"a\" text NOT NULL"] :=
  C2_create_table_identifiers_escaped "t" ⟨[("a", .text false false none)]⟩
    ["\"a\" text NOT NULL"] rfl

/-- C3: for the collection `{ title: text required, views: number default 0,
published: boolean optional, createdAt: date default "now" }` and table
name `posts`, the generated DDL is exactly the statement the spec gives. -/
theorem C3_posts_scenario :
    getCreateTableQuery "posts" ⟨[
      ("title", .text false false none),
      ("views", .number false false (some 0)),
      ("published", .boolean true false none),
      ("createdAt", .date false false (some "now"))]⟩ =
    .ok "CREATE TABLE \"posts\" (\"id\" text PRIMARY KEY, \"title\" text NOT NULL, \"views\" integer NOT NULL DEFAULT 0, \"published\" integer, \"createdAt\" text NOT NULL DEFAULT CURRENT_TIMESTAMP)" := by
  have hnd : natDigits 0 = ['0'] := by
    rw [natDigits, natDigitsOnto]
    decide
  have h0 : intToString 0 = "0" := by
    rw [intToString, intChars, if_neg (by omega), show ((0 : Int).toNat) = 0 from rfl, hnd]
  simp only [getCreateTableQuery, columnClauses, columnClause, getModifiers,
    getDefaultValueSql, schemaTypeToSqlType, DBField.type, DBField.optional,
    DBField.unique, DBField.hasDefault, escapeName, h0]
  rfl

/-- C4: the `DEFAULT` literal is `TRUE`/`FALSE` for booleans; the base-10
rendering with no quote character for numbers; the single-quoted,
quote-doubled escape for text (reading the literal back recovers the
string, so embedded quotes are escaped, never concatenated raw); and for
dates `CURRENT_TIMESTAMP` when the default is the sentinel `"now"`,
otherwise the escaped string literal. -/
theorem C4_default_literals :
    (∀ (cn : String) (o u : Bool) (b : Bool),
      getDefaultValueSql cn (.boolean o u (some b)) =
        .ok (if b then "TRUE" else "FALSE")) ∧
    (∀ (cn : String) (o u : Bool) (n : Int),
      getDefaultValueSql cn (.number o u (some n)) = .ok (intToString n)) ∧
    (∀ n : Int, squote ∉ intChars n) ∧
    (∀ (cn : String) (o u : Bool) (s : String),
      getDefaultValueSql cn (.text o u (some s)) = .ok (escapeString s)) ∧
    (∀ s : String, sqlLiteralValue (escapeString s) = some s) ∧
    (∀ (cn : String) (o u : Bool),
      getDefaultValueSql cn (.date o u (some "now")) = .ok "CURRENT_TIMESTAMP") ∧
    (∀ (cn : String) (o u : Bool) (s : String), ¬(s = "now") →
      getDefaultValueSql cn (.date o u (some s)) = .ok (escapeString s)) := by
  refine ⟨fun cn o u b => rfl, fun cn o u n => rfl, squote_not_mem_intChars,
    fun cn o u s => rfl, sqlLiteralValue_escapeString, fun cn o u => rfl,
    fun cn o u s hs => ?_⟩
  simp [getDefaultValueSql, hs]

theorem C4_default_literals_witness :
    ¬(("2024-01-02" : String) = "now") ∧
    getDefaultValueSql "createdAt" (.date false false (some "2024-01-02")) =
      .ok (escapeString "2024-01-02") :=
  ⟨by decide, C4_default_literals.2.2.2.2.2.2 "createdAt" false false "2024-01-02" (by decide)⟩

/-- C5: the column modifiers appear in the fixed order `NOT NULL` (iff not
optional), then `UNIQUE` (iff unique), then `DEFAULT <literal>` (iff a
default is present); an optional, non-unique field without default gets an
empty modifier string. -/
theorem C5_modifier_order (cn : String) (col : DBField) :
    (col.hasDefault = false →
      getModifiers cn col = .ok ((if col.optional then "" else " NOT NULL") ++
        (if col.unique then " UNIQUE" else ""))) ∧
    (∀ lit, col.hasDefault = true → getDefaultValueSql cn col = .ok lit →
      getModifiers cn col = .ok ((if col.optional then "" else " NOT NULL") ++
        (if col.unique then " UNIQUE" else "") ++ (" DEFAULT " ++ lit))) ∧
    (col.optional = true → col.unique = false → col.hasDefault = false →
      getModifiers cn col = .ok "") := by
  refine ⟨fun hd => ?_, fun lit hd hsql => ?_, fun hopt huni hd => ?_⟩
  · rw [getModifiers_char, hd]
    simp
  · rw [getModifiers_char, hd, hsql]
    simp
  · rw [getModifiers_char, hd, hopt, huni]
    simp

theorem C5_modifier_order_witness :
    DBField.hasDefault (.text true false none) = false ∧
    DBField.optional (.text true false none) = true ∧
    DBField.unique (.text true false none) = false ∧
    getModifiers "c" (.text true false none) = .ok "" :=
  ⟨rfl, rfl, rfl, (C5_modifier_order "c" (.text true false none)).2.2 rfl rfl rfl⟩

/-- C6: the generated `CREATE TABLE` statement is the id clause followed by
one clause per field in declared order, joined by `", "` and closed with
`")"`; the clause list has length `fields.length + 1` with
`"id" text PRIMARY KEY` first. -/
theorem C6_clause_count (name : String) (coll : DBCollection) (qs : List String)
    (h : columnClauses coll.fields = .ok qs) :
    getCreateTableQuery name coll = .ok ("CREATE TABLE " ++ escapeName name ++ " (" ++
      String.intercalate ", " ("\"id\" text PRIMARY KEY" :: qs) ++ ")") ∧
    ("\"id\" text PRIMARY KEY" :: qs).length = coll.fields.length + 1 := by
  refine ⟨getCreateTableQuery_ok name coll qs h, ?_⟩
  have := (columnClauses_ok coll.fields qs h).1
  simp [this]

theorem C6_clause_count_witness :
    getCreateTableQuery "pages" ⟨[("x", .number true false none),
        ("y", .boolean false true none)]⟩ =
      .ok ("CREATE TABLE " ++ escapeName "pages" ++ " (" ++
        String.intercalate ", " ("\"id\" text PRIMARY KEY" ::
          ["\"x\" integer", "\"y\" integer NOT NULL UNIQUE"]) ++ ")") ∧
    ("\"id\" text PRIMARY KEY" :: ["\"x\" integer", "\"y\" integer NOT NULL UNIQUE"]).length =
      (⟨[("x", DBField.number true false none), ("y", DBField.boolean false true none)]⟩ :
        DBCollection).fields.length + 1 :=
  C6_clause_count "pages" ⟨[("x", .number true false none), ("y", .boolean false true none)]⟩
    ["\"x\" integer", "\"y\" integer NOT NULL UNIQUE"] rfl

/-- C7: `columnMapper` represents every date field — with or without a
default — as a plain text column in JSON-serializable mode and through
the `dateType` codec otherwise; in both modes the sentinel default
`"now"` becomes `CURRENT_TIMESTAMP`, and in codec mode any other default
string is parsed back into a native date value before being attached as
the column default. -/
theorem C7_date_column_modes (fn : String) (o u : Bool) :
    (∀ d : Option String, columnMapper fn (.date o u d) true =
      some { name := fn, kind := .text,
             dflt := d.map (fun s => if s = "now" then .currentTimestamp else .str s),
             notNull := !o, unique := u, primaryKey := false }) ∧
    (columnMapper fn (.date o u none) false =
      some { name := fn, kind := .dateCodec, dflt := none,
             notNull := !o, unique := u, primaryKey := false }) ∧
    (columnMapper fn (.date o u (some "now")) false =
      some { name := fn, kind := .dateCodec, dflt := some .currentTimestamp,
             notNull := !o, unique := u, primaryKey := false }) ∧
    (∀ (s : String) (dt : JSDate), ¬(s = "now") → parseIsoDate s = some dt →
      columnMapper fn (.date o u (some s)) false =
      some { name := fn, kind := .dateCodec, dflt := some (.date dt),
             notNull := !o, unique := u, primaryKey := false }) := by
  refine ⟨fun d => rfl, rfl, rfl, fun s dt hs hp => ?_⟩
  simp [columnMapper, hs, hp, DBField.optional, DBField.unique]

theorem C7_date_column_modes_witness :
    ¬(("2020-05-06T07:08:09.010Z" : String) = "now") ∧
    parseIsoDate "2020-05-06T07:08:09.010Z" = some ⟨2020, 5, 6, 7, 8, 9, 10⟩ ∧
    columnMapper "at" (.date false false (some "2020-05-06T07:08:09.010Z")) false =
      some { name := "at", kind := .dateCodec,
             dflt := some (.date ⟨2020, 5, 6, 7, 8, 9, 10⟩),
             notNull := !false, unique := false, primaryKey := false } :=
  ⟨by decide, by decide,
    (C7_date_column_modes "at" false false).2.2.2 "2020-05-06T07:08:09.010Z"
      ⟨2020, 5, 6, 7, 8, 9, 10⟩ (by decide) (by decide)⟩

/-- C8: the non-serializable-mode codecs round-trip: encoding a native date
with `dateType` and decoding the stored string yields the original date
(to millisecond precision), and serializing any supported JSON value with
`jsonType` then parsing the stored string recovers the original value. -/
theorem C8_codec_round_trips :
    (∀ d : JSDate, d.valid → dateType.fromDriver (dateType.toDriver d) = some d) ∧
    (∀ v : JSValue, jsonType.fromDriver (jsonType.toDriver v) = some v) := by
  constructor
  · intro d hd
    show parseIsoDate (toISOString d) = some d
    exact parseIsoDate_toISOString d hd
  · intro v
    show jsonParse (jsonStringify v) = some v
    exact jsonParse_jsonStringify v

theorem C8_codec_round_trips_witness :
    JSDate.valid ⟨2024, 2, 29, 23, 59, 58, 123⟩ ∧
    dateType.fromDriver (dateType.toDriver ⟨2024, 2, 29, 23, 59, 58, 123⟩) =
      some ⟨2024, 2, 29, 23, 59, 58, 123⟩ :=
  ⟨by decide, C8_codec_round_trips.1 ⟨2024, 2, 29, 23, 59, 58, 123⟩ (by decide)⟩

/-- C9: the implicit id column is a text primary key; the generated
identifier has exactly 12 characters for every random source; the
generator is attached as an insert-time default in the column model
(`$default`), while the DDL id clause `"id" text PRIMARY KEY` carries no
`DEFAULT`. -/
theorem C9_id_column (name : String) (coll : DBCollection) :
    (∀ rand : Nat → Nat, (generateId rand).length = 12) ∧
    initialColumns = [("id", idColumn)] ∧
    idColumn.kind = .text ∧ idColumn.primaryKey = true ∧
    idColumn.dflt = some ColDefault.genId ∧
    (∀ qs, columnClauses coll.fields = .ok qs →
      getCreateTableQuery name coll = .ok ("CREATE TABLE " ++ escapeName name ++ " (" ++
        String.intercalate ", " ("\"id\" text PRIMARY KEY" :: qs) ++ ")")) ∧
    ¬("DEFAULT".toList <:+: "\"id\" text PRIMARY KEY".toList) := by
  refine ⟨fun rand => ?_, rfl, rfl, rfl, rfl,
    fun qs h => getCreateTableQuery_ok name coll qs h, by decide⟩
  show (String.mk ((List.range 12).map _)).length = 12
  simp [String.length]

theorem C9_id_column_witness :
    columnClauses (⟨[]⟩ : DBCollection).fields = .ok [] ∧
    getCreateTableQuery "t0" ⟨[]⟩ = .ok ("CREATE TABLE " ++ escapeName "t0" ++ " (" ++
      String.intercalate ", " ("\"id\" text PRIMARY KEY" :: []) ++ ")") :=
  ⟨rfl, (C9_id_column "t0" ⟨[]⟩).2.2.2.2.2.1 [] rfl⟩

/-- C10: `collectionToTable` returns the module-level `initialColumns`
store unchanged (the source copies it with an object spread before
inserting field columns), and the built table's column names are exactly
`id` together with the field names of the collection — in declared order
after `id` whenever the field names are distinct and none of them is
`id`. -/
theorem C10_collectionToTable_frame (name : String) (coll : DBCollection) (mode : Bool)
    (store2 : List (String × Column)) (table : Table)
    (h : collectionToTable name coll mode = some (store2, table)) :
    store2 = initialColumns ∧
    (∀ n, n ∈ table.columns.map Prod.fst ↔ n = "id" ∨ n ∈ coll.fields.map Prod.fst) ∧
    ((coll.fields.map Prod.fst).Nodup → "id" ∉ coll.fields.map Prod.fst →
      table.columns.map Prod.fst = "id" :: coll.fields.map Prod.fst) := by
  rw [collectionToTable, collectionToTableFrom] at h
  cases hb : buildColumns initialColumns coll.fields mode with
  | none => rw [hb] at h; cases h
  | some cols =>
    rw [hb] at h
    cases h
    refine ⟨rfl, fun n => ?_, fun hnodup hid => ?_⟩
    · rw [buildColumns_map_fst_mem coll.fields mode initialColumns cols hb n]
      simp [initialColumns]
    · have := buildColumns_map_fst_ordered coll.fields mode initialColumns cols hb hnodup
        (by
          intro n hn hmem
          simp [initialColumns] at hmem
          subst hmem
          exact hid hn)
      rw [this]
      simp [initialColumns]

theorem C10_collectionToTable_frame_witness :
    initialColumns = initialColumns ∧
    ([("id", idColumn), ("a", sampleTextColumn "a")] : List (String × Column)).map Prod.fst =
      "id" :: (⟨[("a", DBField.text false false none)]⟩ : DBCollection).fields.map Prod.fst :=
  ⟨(C10_collectionToTable_frame "t" ⟨[("a", .text false false none)]⟩ true initialColumns
      ⟨"t", [("id", idColumn), ("a", sampleTextColumn "a")]⟩ rfl).1,
   (C10_collectionToTable_frame "t" ⟨[("a", .text false false none)]⟩ true initialColumns
      ⟨"t", [("id", idColumn), ("a", sampleTextColumn "a")]⟩ rfl).2.2
      (by decide) (by decide)⟩

end AstroDb
